import Mathlib

/-!
# Verification of the Bayesian evidence-fusion engine

Shallow embedding of `src/bayesian_diagnosis.py` (class `BayesianDiagnosis`).
Python floats are modelled as rationals (`ℚ`); the single runtime error the
`update` method can raise — Python's `ZeroDivisionError` on `float` division
by zero, which happens exactly when `P_all == 0` — is modelled with `Except`.
The mutation of `self.posterior_history` is modelled by explicit state
passing: `update` returns the new state on success, and the caller keeps the
old state when the exception propagates (the `append` in the source happens
after the division, so a raising call leaves the history untouched).
-/

/-- Errors observable from `BayesianDiagnosis.update`. -/
inductive PyError where
  /-- Python's `ZeroDivisionError`: raised by the interpreter at
  `(P_D * likelihood_given_D) / P_all` when `P_all == 0`.  This is the only
  error the source's `update` can raise on list inputs. -/
  | zeroDivisionError
  /-- Modelled from the spec: the `DegenerateEvidenceError` class of the
  spec's error taxonomy (§7).  No such class exists anywhere in the source
  and `update` never produces it; it is declared here only so that claims
  mentioning it can be stated. -/
  | degenerateEvidenceError
deriving DecidableEq, Repr

/-- The state of `class BayesianDiagnosis`: the constructor argument
`prior` and the list `posterior_history`. -/
structure BayesianDiagnosis where
  prior : ℚ
  posterior_history : List ℚ
deriving DecidableEq, Repr

namespace BayesianDiagnosis

/-- `__init__`: stores `prior` and sets `posterior_history = [prior]`.
The source performs no validation of any kind on `prior`. -/
def init (prior : ℚ) : BayesianDiagnosis :=
  { prior := prior, posterior_history := [prior] }

/-- `self.posterior_history[-1]`.  Every state reachable through `init` and
`update` has a non-empty history, so the default value of `getLastD` is
never consulted in reachable states (Python's `[-1]` would raise on an
empty list, which cannot happen here). -/
def currentP (b : BayesianDiagnosis) : ℚ :=
  b.posterior_history.getLastD 0

/-- One iteration of the `for (P_pos_given_D, P_pos_given_notD), res in
zip(tests, results)` loop body, acting on the accumulator pair
`(likelihood_given_D, likelihood_given_notD)`. -/
def likelihoodStep (acc : (ℚ × ℚ)) (tr : ((ℚ × ℚ) × Bool)) : ℚ × ℚ :=
  if tr.2 then
    (acc.1 * tr.1.1, acc.2 * tr.1.2)
  else
    (acc.1 * (1 - tr.1.1), acc.2 * (1 - tr.1.2))

/-- The pair `(likelihood_given_D, likelihood_given_notD)` after the whole
loop: a left fold of `likelihoodStep` over `zip(tests, results)` starting
from `(1, 1)`.  Note Python's `zip` truncates at the shorter sequence. -/
def likelihoods (tests : List (ℚ × ℚ)) (results : List Bool) : ℚ × ℚ :=
  (tests.zip results).foldl likelihoodStep (1, 1)

/-- `P_all = P_D * likelihood_given_D + P_notD * likelihood_given_notD`. -/
def pAll (b : BayesianDiagnosis) (tests : List (ℚ × ℚ)) (results : List Bool) : ℚ :=
  b.currentP * (likelihoods tests results).1
    + (1 - b.currentP) * (likelihoods tests results).2

/-- The method `update(self, tests, results)`.  When `P_all == 0` the
division raises `ZeroDivisionError` (before the `append`); otherwise the
posterior is appended to `posterior_history` and returned. -/
def update (b : BayesianDiagnosis) (tests : List (ℚ × ℚ)) (results : List Bool) :
    Except PyError (ℚ × BayesianDiagnosis) :=
  if pAll b tests results = 0 then
    Except.error PyError.zeroDivisionError
  else
    let posterior := b.currentP * (likelihoods tests results).1 / pAll b tests results
    Except.ok (posterior,
      { b with posterior_history := b.posterior_history ++ [posterior] })

/-- The state after a call to `update`: the new state on success, the old
state when the exception propagates (the source appends only after the
division has succeeded). -/
def updateState (b : BayesianDiagnosis) (tests : List (ℚ × ℚ)) (results : List Bool) :
    BayesianDiagnosis :=
  match update b tests results with
  | Except.ok pb => pb.2
  | Except.error _ => b

/-- Whether a call to `update` returns normally. -/
def updateSucceeds (b : BayesianDiagnosis) (tests : List (ℚ × ℚ)) (results : List Bool) :
    Bool :=
  match update b tests results with
  | Except.ok _ => true
  | Except.error _ => false

/-- A sequence of `update` calls, each carrying its `tests` and `results`
arguments; a call that raises leaves the state unchanged and the sequence
continues on that unchanged state. -/
def runUpdates (b : BayesianDiagnosis) :
    List (List (ℚ × ℚ) × List Bool) → BayesianDiagnosis
  | [] => b
  | c :: cs => runUpdates (updateState b c.1 c.2) cs

/-- The spec's likelihood of the evidence under the hypothesis (§4.1 step 3):
the product over the evidence items of `sensitivity` for a positive outcome
and `1 - sensitivity` for a negative outcome.  An evidence item pairs a
`(sensitivity, false_positive_rate)` test with its boolean outcome. -/
def specLikelihoodD (evidence : List ((ℚ × ℚ) × Bool)) : ℚ :=
  (evidence.map (fun e => if e.2 then e.1.1 else 1 - e.1.1)).prod

/-- The spec's likelihood of the evidence under the negated hypothesis:
the product of `false_positive_rate` for a positive outcome and
`1 - false_positive_rate` for a negative outcome. -/
def specLikelihoodNotD (evidence : List ((ℚ × ℚ) × Bool)) : ℚ :=
  (evidence.map (fun e => if e.2 then e.1.2 else 1 - e.1.2)).prod

/-- The spec's posterior formula (§4.1 steps 4–5):
`(p_d * likelihood_d) / (p_d * likelihood_d + (1 - p_d) * likelihood_not_d)`. -/
def specPosterior (pD : ℚ) (evidence : List ((ℚ × ℚ) × Bool)) : ℚ :=
  (pD * specLikelihoodD evidence) /
    (pD * specLikelihoodD evidence + (1 - pD) * specLikelihoodNotD evidence)

/-! ## Helper lemmas -/

/-- The loop accumulator factors out of the fold: folding from `(a, b)`
multiplies `a` by the product of the per-item likelihoods under `D` and `b`
by the product under `¬D`. -/
theorem foldl_likelihoodStep (l : List ((ℚ × ℚ) × Bool)) :
    ∀ a b : ℚ, l.foldl likelihoodStep (a, b)
      = (a * specLikelihoodD l, b * specLikelihoodNotD l) := by
  induction l with
  | nil =>
    intro a b
    simp [specLikelihoodD, specLikelihoodNotD]
  | cons x xs ih =>
    intro a b
    rcases x with ⟨⟨s, f⟩, r⟩
    cases r <;>
      simp [likelihoodStep, specLikelihoodD, specLikelihoodNotD, ih] <;>
      constructor <;> ring

/-- The code's fold computes exactly the spec's two products. -/
theorem likelihoods_eq_spec (tests : List (ℚ × ℚ)) (results : List Bool) :
    likelihoods tests results
      = (specLikelihoodD (tests.zip results), specLikelihoodNotD (tests.zip results)) := by
  simpa [likelihoods] using foldl_likelihoodStep (tests.zip results) 1 1

/-- Python's `zip` truncates at the shorter sequence: zipping the two
prefixes of length `min len₁ len₂` gives the same pair list as zipping the
full sequences. -/
theorem zip_take_min {α β : Type} :
    ∀ (l1 : List α) (l2 : List β),
      (l1.take (min l1.length l2.length)).zip (l2.take (min l1.length l2.length))
        = l1.zip l2
  | [], l2 => by simp
  | a :: l1, [] => by simp
  | a :: l1, b :: l2 => by
    simp only [List.length_cons, Nat.succ_min_succ, List.take_succ_cons, List.zip_cons_cons]
    rw [zip_take_min l1 l2]

/-- Successful `update` appends exactly one element; a raising call leaves
the state untouched. -/
theorem updateState_history_length (b : BayesianDiagnosis)
    (tests : List (ℚ × ℚ)) (results : List Bool) :
    (updateState b tests results).posterior_history.length
      = b.posterior_history.length
        + (if updateSucceeds b tests results then 1 else 0) := by
  unfold updateState updateSucceeds update
  by_cases h : pAll b tests results = 0 <;> simp [h]

end BayesianDiagnosis

open BayesianDiagnosis

/-! ## Claims -/

/-- C5: the length of `posterior_history` increases by exactly 1 on a
successful `update` call — regardless of how many evidence items `tests`
and `results` carry — and by 0 when the call raises. -/
theorem c5_update_history_growth (b : BayesianDiagnosis)
    (tests : List (ℚ × ℚ)) (results : List Bool) :
    (updateState b tests results).posterior_history.length
      = b.posterior_history.length
        + (if updateSucceeds b tests results then 1 else 0) :=
  updateState_history_length b tests results

/-- C1: whenever `update` returns a posterior, that posterior equals the
spec's formula `(p_d * likelihood_d) / (p_d * likelihood_d + (1 - p_d) *
likelihood_not_d)` at `p_d = history[-1]`, where the two likelihoods are
the products over the paired evidence items. -/
theorem c1_posterior_formula (b : BayesianDiagnosis) (tests : List (ℚ × ℚ))
    (results : List Bool) (p : ℚ) (b' : BayesianDiagnosis)
    (h : update b tests results = Except.ok (p, b')) :
    p = specPosterior b.currentP (tests.zip results) := by
  unfold update at h
  by_cases h0 : pAll b tests results = 0
  · simp [h0] at h
  · simp only [h0, if_false] at h
    rw [Except.ok.injEq, Prod.mk.injEq] at h
    rw [← h.1, specPosterior, pAll, likelihoods_eq_spec]

/-- Witness for C1 at `prior = 1/2` and a single test `(0.9, 0.1)` with a
positive outcome: the update succeeds with posterior `9/10` and the spec
formula evaluates to the same value. -/
theorem c1_witness :
    update (init (1/2)) [(9/10, 1/10)] [true]
        = Except.ok (9/10, { prior := 1/2, posterior_history := [1/2, 9/10] }) ∧
    (9/10 : ℚ) = specPosterior (init (1/2)).currentP
        ([((9 : ℚ)/10, (1 : ℚ)/10)].zip [true]) :=
  ⟨by norm_num [update, pAll, likelihoods, likelihoodStep, currentP, init],
   c1_posterior_formula (init (1/2)) [(9/10, 1/10)] [true] (9/10)
     { prior := 1/2, posterior_history := [1/2, 9/10] }
     (by norm_num [update, pAll, likelihoods, likelihoodStep, currentP, init])⟩

/-- C2 (amended): when the computed `P_all` is exactly 0, `update` raises
`ZeroDivisionError` — Python's float-division-by-zero error, not a
`DegenerateEvidenceError`, which the source never defines — and the belief
state is left unchanged (nothing is appended to the history). -/
theorem c2_amended_degenerate_raises (b : BayesianDiagnosis)
    (tests : List (ℚ × ℚ)) (results : List Bool)
    (h : pAll b tests results = 0) :
    update b tests results = Except.error PyError.zeroDivisionError ∧
    updateState b tests results = b := by
  refine ⟨by simp [update, h], ?_⟩
  simp [updateState, update, h]

/-- Witness for C2 (amended): the spec's own degenerate example —
`sensitivity = 0`, `false_positive_rate = 0`, positive outcome — makes
`P_all = 0`, and `update` raises with the history untouched. -/
theorem c2_witness :
    pAll (init (1/2)) [(0, 0)] [true] = 0 ∧
    (update (init (1/2)) [(0, 0)] [true] = Except.error PyError.zeroDivisionError ∧
     updateState (init (1/2)) [(0, 0)] [true] = init (1/2)) :=
  ⟨by norm_num [pAll, likelihoods, likelihoodStep, currentP, init],
   c2_amended_degenerate_raises (init (1/2)) [(0, 0)] [true]
     (by norm_num [pAll, likelihoods, likelihoodStep, currentP, init])⟩

/-- Counterexample to C2 as stated: at the spec's degenerate input the
error that propagates is `ZeroDivisionError`, not the claimed
`DegenerateEvidenceError` (no such class exists in the source). -/
theorem c2_counterexample :
    update (init (1/2)) [(0, 0)] [true] ≠ Except.error PyError.degenerateEvidenceError ∧
    update (init (1/2)) [(0, 0)] [true] = Except.error PyError.zeroDivisionError :=
  ⟨by
    norm_num [update, pAll, likelihoods, likelihoodStep, currentP, init]
    decide,
   by norm_num [update, pAll, likelihoods, likelihoodStep, currentP, init]⟩

/-- C6 (amended): `update` with an empty tests list does not raise any
error; the loop body never runs, both likelihoods stay 1, `P_all = 1`, and
the call succeeds, returning the current belief `history[-1]` and
appending it to the history. -/
theorem c6_amended_empty_evidence (b : BayesianDiagnosis) (results : List Bool) :
    update b [] results
      = Except.ok (b.currentP,
          { b with posterior_history := b.posterior_history ++ [b.currentP] }) := by
  have hl : likelihoods [] results = (1, 1) := rfl
  have hp : pAll b [] results = 1 := by
    simp [pAll, hl]
  simp [update, hp, hl]

/-- Counterexample to C6 as stated: calling `update` on the state with
prior `1/2` and an empty evidence list raises nothing — there is no
`EmptyEvidenceError` in the source — and a history entry IS appended
(the current belief `1/2`). -/
theorem c6_counterexample :
    update (init (1/2)) [] []
      = Except.ok (1/2, { prior := 1/2, posterior_history := [1/2, 1/2] }) := by
  norm_num [update, pAll, likelihoods, likelihoodStep, currentP, init]

/-- C7 (amended): construction performs no validation whatsoever — the
constructor accepts any rational `prior` (in range or not) and stores it
as `history[0]`; no `InvalidProbabilityError` exists in the source. -/
theorem c7_amended_no_validation (p : ℚ) :
    (init p).posterior_history = [p] ∧ (init p).prior = p :=
  ⟨rfl, rfl⟩

/-- Counterexample to C7 as stated: constructing with the out-of-range
prior `1.5` succeeds (no error at construction time), and the value even
flows through a subsequent `update`, which appends the out-of-range
posterior `1.5` to the history. -/
theorem c7_counterexample :
    (init (3/2)).posterior_history = [3/2] ∧
    update (init (3/2)) [(1/2, 1/2)] [true]
      = Except.ok (3/2, { prior := 3/2, posterior_history := [3/2, 3/2] }) := by
  refine ⟨rfl, by norm_num [update, pAll, likelihoods, likelihoodStep, currentP, init]⟩

/-- C8 (amended): a single evidence item whose sensitivity equals its
false-positive rate leaves the posterior exactly equal to the current
belief `history[-1]`, provided the common likelihood factor (and hence
`P_all`) is nonzero; with `sensitivity = false_positive_rate = 0` and a
positive outcome (or `= 1` and a negative outcome) the call instead
raises `ZeroDivisionError`. -/
theorem c8_amended_null_test (b : BayesianDiagnosis) (s : ℚ) (r : Bool)
    (_h0 : 0 < b.currentP) (_h1 : b.currentP < 1)
    (hc : (if r then s else 1 - s) ≠ 0) :
    update b [(s, s)] [r]
      = Except.ok (b.currentP,
          { b with posterior_history := b.posterior_history ++ [b.currentP] }) := by
  have hl : likelihoods [(s, s)] [r]
      = ((if r then s else 1 - s), (if r then s else 1 - s)) := by
    cases r <;> simp [likelihoods, likelihoodStep]
  have hp : pAll b [(s, s)] [r] = (if r then s else 1 - s) := by
    simp only [pAll, hl]
    ring
  have hA : pAll b [(s, s)] [r] ≠ 0 := by rw [hp]; exact hc
  have hpost : b.currentP * (likelihoods [(s, s)] [r]).1 / pAll b [(s, s)] [r]
      = b.currentP := by
    rw [hp, hl]
    rw [mul_div_assoc, div_self hc, mul_one]
  unfold update
  rw [if_neg hA]
  simp only [hpost]

/-- Witness for C8 (amended): prior `1/2`, a test with sensitivity and
false-positive rate both `3/10`, positive outcome — the posterior stays
`1/2`. -/
theorem c8_witness :
    (0 : ℚ) < (init (1/2)).currentP ∧ (init (1/2)).currentP < 1 ∧
    (if true then (3 : ℚ)/10 else 1 - 3/10) ≠ 0 ∧
    update (init (1/2)) [(3/10, 3/10)] [true]
      = Except.ok ((init (1/2)).currentP,
          { init (1/2) with
              posterior_history := (init (1/2)).posterior_history
                ++ [(init (1/2)).currentP] }) :=
  ⟨by norm_num [currentP, init], by norm_num [currentP, init], by norm_num,
   c8_amended_null_test (init (1/2)) (3/10) true
     (by norm_num [currentP, init]) (by norm_num [currentP, init]) (by norm_num)⟩

/-- Counterexample to C8 as stated: the belief `1/2` lies in `(0,1)` and
the item `(0, 0)` has sensitivity equal to its false-positive rate, yet a
positive outcome makes `update` raise `ZeroDivisionError` instead of
returning a posterior equal to the pre-update belief. -/
theorem c8_counterexample :
    (0 : ℚ) < (init (1/2)).currentP ∧ (init (1/2)).currentP < 1 ∧
    update (init (1/2)) [(0, 0)] [true] = Except.error PyError.zeroDivisionError := by
  refine ⟨by norm_num [currentP, init], by norm_num [currentP, init],
    by norm_num [update, pAll, likelihoods, likelihoodStep, currentP, init]⟩

/-- C9 (amended): from prior `0.001`, one test `(0.95, 0.02)` with a
positive outcome gives the posterior exactly `95/2093 ≈ 0.045389` (about
`0.0454` within `1e-4`), not `0.04566`. -/
theorem c9_amended_concrete_scenario :
    update (init (1/1000)) [(95/100, 2/100)] [true]
      = Except.ok (95/2093,
          { prior := 1/1000, posterior_history := [1/1000, 95/2093] }) ∧
    -(1/10000) < (95 : ℚ)/2093 - 4539/100000 ∧
    (95 : ℚ)/2093 - 4539/100000 < 1/10000 := by
  refine ⟨by norm_num [update, pAll, likelihoods, likelihoodStep, currentP, init],
    by norm_num, by norm_num⟩

/-- Counterexample to C9 as stated: the computed posterior is `95/2093 ≈
0.045389`, and `0.04566 - 95/2093 > 1e-4`, so the returned posterior is
NOT within `1e-4` of `0.04566`. -/
theorem c9_counterexample :
    update (init (1/1000)) [(95/100, 2/100)] [true]
      = Except.ok (95/2093,
          { prior := 1/1000, posterior_history := [1/1000, 95/2093] }) ∧
    (1 : ℚ)/10000 < 4566/100000 - 95/2093 := by
  refine ⟨by norm_num [update, pAll, likelihoods, likelihoodStep, currentP, init],
    by norm_num⟩

/-- C10 (amended): a length mismatch between `tests` and `results` does not
itself raise any error — `zip` silently truncates, so the call behaves
exactly as if both sequences were cut to the shorter length, fusing only
the first `min(len(tests), len(results))` paired items; as with any call,
exactly one posterior is appended when the call succeeds (and none when
the truncated fusion is degenerate, in which case `ZeroDivisionError` is
raised just as it would be for equal-length input). -/
theorem c10_amended_zip_truncation (b : BayesianDiagnosis)
    (tests : List (ℚ × ℚ)) (results : List Bool)
    (_h : tests.length ≠ results.length) :
    update b tests results
      = update b (tests.take (min tests.length results.length))
          (results.take (min tests.length results.length)) ∧
    (updateState b tests results).posterior_history.length
      = b.posterior_history.length
        + (if updateSucceeds b tests results then 1 else 0) := by
  constructor
  · simp only [update, pAll, likelihoods, zip_take_min]
  · exact updateState_history_length b tests results

/-- Witness for C10 (amended) at one test and two results. -/
theorem c10_witness :
    update (init (1/2)) [(9/10, 1/10)] [true, false]
      = update (init (1/2))
          ([((9 : ℚ)/10, (1 : ℚ)/10)].take
            (min [((9 : ℚ)/10, (1 : ℚ)/10)].length [true, false].length))
          ([true, false].take
            (min [((9 : ℚ)/10, (1 : ℚ)/10)].length [true, false].length)) ∧
    (updateState (init (1/2)) [(9/10, 1/10)] [true, false]).posterior_history.length
      = (init (1/2)).posterior_history.length
        + (if updateSucceeds (init (1/2)) [(9/10, 1/10)] [true, false] then 1 else 0) :=
  c10_amended_zip_truncation (init (1/2)) [(9/10, 1/10)] [true, false] (by norm_num)

/-- Counterexample to C10 as stated: the sequences `[(0, 0)]` and
`[True, True]` have different lengths, yet the call does raise an error —
the single paired item is degenerate, so `ZeroDivisionError` propagates
and no posterior is appended. -/
theorem c10_counterexample :
    ([((0 : ℚ), (0 : ℚ))].length ≠ [true, true].length) ∧
    update (init (1/2)) [(0, 0)] [true, true] = Except.error PyError.zeroDivisionError := by
  refine ⟨by norm_num,
    by norm_num [update, pAll, likelihoods, likelihoodStep, currentP, init]⟩

/-- `getLastD` of a list whose elements all satisfy a property, with a
default that satisfies it too, satisfies the property. -/
theorem getLastD_prop {P : ℚ → Prop} (d : ℚ) (hd : P d) :
    ∀ l : List ℚ, (∀ x ∈ l, P x) → P (l.getLastD d)
  | [], _ => hd
  | y :: ys, h => by
    rw [List.getLastD_cons]
    exact getLastD_prop y (h y (List.mem_cons_self y ys)) ys
      (fun x hx => h x (List.mem_cons_of_mem y hx))

/-- If every zipped evidence item carries probabilities in `[0,1]` and the
accumulator lies in `[0,1]²`, the likelihood fold stays in `[0,1]²`. -/
theorem foldl_likelihoodStep_mem :
    ∀ (l : List ((ℚ × ℚ) × Bool)) (acc : ℚ × ℚ),
      (∀ e ∈ l, (0 ≤ e.1.1 ∧ e.1.1 ≤ 1) ∧ (0 ≤ e.1.2 ∧ e.1.2 ≤ 1)) →
      (0 ≤ acc.1 ∧ acc.1 ≤ 1) → (0 ≤ acc.2 ∧ acc.2 ≤ 1) →
      (0 ≤ (l.foldl likelihoodStep acc).1 ∧ (l.foldl likelihoodStep acc).1 ≤ 1) ∧
      (0 ≤ (l.foldl likelihoodStep acc).2 ∧ (l.foldl likelihoodStep acc).2 ≤ 1)
  | [], acc, _, ha, hb => ⟨ha, hb⟩
  | x :: xs, acc, hl, ha, hb => by
    rw [List.foldl_cons]
    obtain ⟨⟨hs0, hs1⟩, hf0, hf1⟩ := hl x (List.mem_cons_self x xs)
    have hstep1 : 0 ≤ (likelihoodStep acc x).1 ∧ (likelihoodStep acc x).1 ≤ 1 := by
      unfold likelihoodStep
      split
      · exact ⟨mul_nonneg ha.1 hs0, mul_le_one₀ ha.2 hs0 hs1⟩
      · exact ⟨mul_nonneg ha.1 (by linarith), mul_le_one₀ ha.2 (by linarith) (by linarith)⟩
    have hstep2 : 0 ≤ (likelihoodStep acc x).2 ∧ (likelihoodStep acc x).2 ≤ 1 := by
      unfold likelihoodStep
      split
      · exact ⟨mul_nonneg hb.1 hf0, mul_le_one₀ hb.2 hf0 hf1⟩
      · exact ⟨mul_nonneg hb.1 (by linarith), mul_le_one₀ hb.2 (by linarith) (by linarith)⟩
    exact foldl_likelihoodStep_mem xs (likelihoodStep acc x)
      (fun e he => hl e (List.mem_cons_of_mem x he)) hstep1 hstep2

/-- Bounds for the Bayes quotient: with `p, a, c ≥ 0`, `p ≤ 1` and a
nonzero denominator, `p*a / (p*a + (1-p)*c)` lies in `[0,1]`. -/
theorem posterior_mem (p a c : ℚ) (hp0 : 0 ≤ p) (hp1 : p ≤ 1)
    (ha : 0 ≤ a) (hc : 0 ≤ c) (hne : p * a + (1 - p) * c ≠ 0) :
    0 ≤ p * a / (p * a + (1 - p) * c) ∧ p * a / (p * a + (1 - p) * c) ≤ 1 := by
  have hd0 : 0 ≤ p * a + (1 - p) * c :=
    add_nonneg (mul_nonneg hp0 ha) (mul_nonneg (by linarith) hc)
  have hd : 0 < p * a + (1 - p) * c := lt_of_le_of_ne hd0 (Ne.symm hne)
  refine ⟨div_nonneg (mul_nonneg hp0 ha) hd.le, ?_⟩
  rw [div_le_one hd]
  nlinarith [mul_nonneg (sub_nonneg.mpr hp1) hc]

/-- A degenerate call (`P_all = 0`) leaves the state unchanged. -/
theorem updateState_eq_error (b : BayesianDiagnosis) (tests : List (ℚ × ℚ))
    (results : List Bool) (h0 : pAll b tests results = 0) :
    updateState b tests results = b := by
  unfold updateState update
  rw [if_pos h0]

/-- A non-degenerate call appends the computed posterior. -/
theorem updateState_eq_ok (b : BayesianDiagnosis) (tests : List (ℚ × ℚ))
    (results : List Bool) (h0 : pAll b tests results ≠ 0) :
    updateState b tests results
      = { b with posterior_history := b.posterior_history
            ++ [b.currentP * (likelihoods tests results).1 / pAll b tests results] } := by
  unfold updateState update
  rw [if_neg h0]

/-- One `update` call preserves the `[0,1]` range invariant of the history,
whether it succeeds or raises. -/
theorem update_preserves_range (b : BayesianDiagnosis)
    (tests : List (ℚ × ℚ)) (results : List Bool)
    (hb : ∀ x ∈ b.posterior_history, 0 ≤ x ∧ x ≤ 1)
    (ht : ∀ t ∈ tests, (0 ≤ t.1 ∧ t.1 ≤ 1) ∧ (0 ≤ t.2 ∧ t.2 ≤ 1)) :
    ∀ x ∈ (updateState b tests results).posterior_history, 0 ≤ x ∧ x ≤ 1 := by
  by_cases h0 : pAll b tests results = 0
  · rw [updateState_eq_error b tests results h0]
    exact hb
  · rw [updateState_eq_ok b tests results h0]
    intro x hx
    simp only [List.mem_append, List.mem_singleton] at hx
    rcases hx with hx | rfl
    · exact hb x hx
    · have hcp : 0 ≤ b.currentP ∧ b.currentP ≤ 1 :=
        getLastD_prop 0 (by norm_num) b.posterior_history hb
      have hz : ∀ e ∈ tests.zip results,
          (0 ≤ e.1.1 ∧ e.1.1 ≤ 1) ∧ (0 ≤ e.1.2 ∧ e.1.2 ≤ 1) := by
        intro e he
        rcases e with ⟨t, r⟩
        exact ht t (List.of_mem_zip he).1
      have hlik := foldl_likelihoodStep_mem (tests.zip results) (1, 1) hz
        (by norm_num) (by norm_num)
      have hmem := posterior_mem b.currentP (likelihoods tests results).1
        (likelihoods tests results).2 hcp.1 hcp.2 hlik.1.1 hlik.2.1
        (by unfold pAll at h0; exact h0)
      unfold pAll
      exact hmem

/-- Any sequence of `update` calls with in-range test parameters preserves
the `[0,1]` range invariant of the history. -/
theorem runUpdates_preserves_range :
    ∀ (calls : List (List (ℚ × ℚ) × List Bool)) (b : BayesianDiagnosis),
      (∀ x ∈ b.posterior_history, 0 ≤ x ∧ x ≤ 1) →
      (∀ c ∈ calls, ∀ t ∈ c.1, (0 ≤ t.1 ∧ t.1 ≤ 1) ∧ (0 ≤ t.2 ∧ t.2 ≤ 1)) →
      ∀ x ∈ (runUpdates b calls).posterior_history, 0 ≤ x ∧ x ≤ 1
  | [], _, hb, _ => hb
  | c :: cs, b, hb, hc =>
    runUpdates_preserves_range cs (updateState b c.1 c.2)
      (update_preserves_range b c.1 c.2 hb (hc c (List.mem_cons_self c cs)))
      (fun c' h' => hc c' (List.mem_cons_of_mem c h'))

/-- C3: starting from a prior in `[0,1]`, after any sequence of `update`
calls whose test parameters (sensitivity and false-positive rate) all lie
in `[0,1]`, every element of `posterior_history` lies in `[0,1]`. -/
theorem c3_range_invariant (prior : ℚ) (calls : List (List (ℚ × ℚ) × List Bool))
    (hp0 : 0 ≤ prior) (hp1 : prior ≤ 1)
    (ht : ∀ c ∈ calls, ∀ t ∈ c.1, (0 ≤ t.1 ∧ t.1 ≤ 1) ∧ (0 ≤ t.2 ∧ t.2 ≤ 1)) :
    ∀ x ∈ (runUpdates (init prior) calls).posterior_history, 0 ≤ x ∧ x ≤ 1 := by
  refine runUpdates_preserves_range calls (init prior) ?_ ht
  intro x hx
  simp only [init, List.mem_singleton] at hx
  subst hx
  exact ⟨hp0, hp1⟩

/-- Witness for C3: prior `1/2` and two update calls with in-range tests. -/
theorem c3_witness :
    ((0 : ℚ) ≤ 1/2 ∧ (1/2 : ℚ) ≤ 1) ∧
    ∀ x ∈ (runUpdates (init (1/2))
        [([(9/10, 1/10)], [true]), ([(1/2, 1/2)], [false])]).posterior_history,
      0 ≤ x ∧ x ≤ 1 :=
  ⟨⟨by norm_num, by norm_num⟩,
   c3_range_invariant (1/2) [([(9/10, 1/10)], [true]), ([(1/2, 1/2)], [false])]
     (by norm_num) (by norm_num)
     (by
       intro c hc t htm
       simp only [List.mem_cons, List.not_mem_nil, or_false] at hc
       rcases hc with rfl | rfl <;>
         (rw [List.mem_singleton] at htm; subst htm; norm_num))⟩

/-- `likelihoods` of a single paired item in closed form. -/
theorem likelihoods_single (s f : ℚ) (r : Bool) :
    likelihoods [(s, f)] [r]
      = ((if r then s else 1 - s), (if r then f else 1 - f)) := by
  cases r <;> simp [likelihoods, likelihoodStep]

/-- `likelihoods` of two paired items is the componentwise product. -/
theorem likelihoods_pair (s1 f1 s2 f2 : ℚ) (r1 r2 : Bool) :
    likelihoods [(s1, f1), (s2, f2)] [r1, r2]
      = ((if r1 then s1 else 1 - s1) * (if r2 then s2 else 1 - s2),
         (if r1 then f1 else 1 - f1) * (if r2 then f2 else 1 - f2)) := by
  cases r1 <;> cases r2 <;> simp [likelihoods, likelihoodStep]

/-- Inversion of a successful `update`: the guard was nonzero, the returned
posterior is the Bayes quotient, and the new state is the old one with the
posterior appended. -/
theorem update_ok_inv (b : BayesianDiagnosis) (tests : List (ℚ × ℚ))
    (results : List Bool) (p : ℚ) (b' : BayesianDiagnosis)
    (h : update b tests results = Except.ok (p, b')) :
    pAll b tests results ≠ 0 ∧
    p = b.currentP * (likelihoods tests results).1 / pAll b tests results ∧
    b' = { b with posterior_history := b.posterior_history ++ [p] } := by
  unfold update at h
  by_cases h0 : pAll b tests results = 0
  · rw [if_pos h0] at h
    exact absurd h (by simp)
  · rw [if_neg h0] at h
    simp only [Except.ok.injEq, Prod.mk.injEq] at h
    refine ⟨h0, h.1.symm, ?_⟩
    rw [← h.2, h.1]

/-- The arithmetic heart of batched-versus-sequential fusion: one Bayes
step with likelihood pair `(c1, d1)` followed by one with `(c2, d2)`
equals one step with the products `(c1*c2, d1*d2)`, and the batched
denominator is nonzero whenever both sequential ones are. -/
theorem seq_step (p c1 d1 c2 d2 : ℚ)
    (h1 : p * c1 + (1 - p) * d1 ≠ 0)
    (h2 : (p * c1 / (p * c1 + (1 - p) * d1)) * c2
        + (1 - p * c1 / (p * c1 + (1 - p) * d1)) * d2 ≠ 0) :
    p * (c1 * c2) + (1 - p) * (d1 * d2) ≠ 0 ∧
    p * (c1 * c2) / (p * (c1 * c2) + (1 - p) * (d1 * d2))
      = (p * c1 / (p * c1 + (1 - p) * d1)) * c2
        / ((p * c1 / (p * c1 + (1 - p) * d1)) * c2
            + (1 - p * c1 / (p * c1 + (1 - p) * d1)) * d2) := by
  have key : (p * c1 / (p * c1 + (1 - p) * d1)) * c2
      + (1 - p * c1 / (p * c1 + (1 - p) * d1)) * d2
      = (p * (c1 * c2) + (1 - p) * (d1 * d2)) / (p * c1 + (1 - p) * d1) := by
    field_simp
    ring
  have hB : p * (c1 * c2) + (1 - p) * (d1 * d2) ≠ 0 := by
    intro hB0
    apply h2
    rw [key, hB0, zero_div]
  refine ⟨hB, ?_⟩
  rw [key, div_div_eq_mul_div]
  field_simp
  ring

/-- C4: if updating with `[e1]` succeeds with posterior `p1` and updating
the resulting state with `[e2]` succeeds with posterior `p2`, then fusing
`[e1, e2]` in one call also succeeds, with a posterior within `1e-9`
(in fact exactly equal) of `p2`. -/
theorem c4_batched_eq_sequential (b : BayesianDiagnosis)
    (s1 f1 s2 f2 : ℚ) (r1 r2 : Bool) (p1 p2 : ℚ) (b1 b2 : BayesianDiagnosis)
    (h1 : update b [(s1, f1)] [r1] = Except.ok (p1, b1))
    (h2 : update b1 [(s2, f2)] [r2] = Except.ok (p2, b2)) :
    ∃ p12 b12,
      update b [(s1, f1), (s2, f2)] [r1, r2] = Except.ok (p12, b12) ∧
      |p12 - p2| ≤ 1 / 1000000000 := by
  obtain ⟨e1, hp1, hb1⟩ := update_ok_inv b [(s1, f1)] [r1] p1 b1 h1
  obtain ⟨e2, hp2, hb2⟩ := update_ok_inv b1 [(s2, f2)] [r2] p2 b2 h2
  have hcp1 : b1.currentP = p1 := by
    rw [hb1]
    simp [currentP, List.getLastD_concat]
  simp only [pAll, likelihoods_single] at e1 hp1
  simp only [pAll, likelihoods_single] at e2 hp2
  rw [hcp1] at e2 hp2
  subst hp1
  have hstep := seq_step b.currentP
    (if r1 then s1 else 1 - s1) (if r1 then f1 else 1 - f1)
    (if r2 then s2 else 1 - s2) (if r2 then f2 else 1 - f2) e1 e2
  have hBne : pAll b [(s1, f1), (s2, f2)] [r1, r2] ≠ 0 := by
    simp only [pAll, likelihoods_pair]
    exact hstep.1
  refine ⟨b.currentP * (likelihoods [(s1, f1), (s2, f2)] [r1, r2]).1
      / pAll b [(s1, f1), (s2, f2)] [r1, r2],
    { b with posterior_history := b.posterior_history
        ++ [b.currentP * (likelihoods [(s1, f1), (s2, f2)] [r1, r2]).1
            / pAll b [(s1, f1), (s2, f2)] [r1, r2]] }, ?_, ?_⟩
  · unfold update
    rw [if_neg hBne]
  · have heq : b.currentP * (likelihoods [(s1, f1), (s2, f2)] [r1, r2]).1
        / pAll b [(s1, f1), (s2, f2)] [r1, r2] = p2 := by
      rw [hp2]
      simp only [pAll, likelihoods_pair]
      exact hstep.2
    rw [heq, sub_self, abs_zero]
    norm_num

/-- Witness for C4: prior `1/2`, tests `(0.9, 0.1)` then `(0.8, 0.2)`,
both positive; sequentially the posteriors are `9/10` then `36/37`, and
the batched call lands within `1e-9` of `36/37`. -/
theorem c4_witness :
    ∃ p12 b12,
      update (init (1/2)) [(9/10, 1/10), (8/10, 2/10)] [true, true]
        = Except.ok (p12, b12) ∧
      |p12 - 36/37| ≤ 1 / 1000000000 :=
  c4_batched_eq_sequential (init (1/2)) (9/10) (1/10) (8/10) (2/10) true true
    (9/10) (36/37) { prior := 1/2, posterior_history := [1/2, 9/10] }
    { prior := 1/2, posterior_history := [1/2, 9/10, 36/37] }
    (by norm_num [update, pAll, likelihoods, likelihoodStep, currentP, init])
    (by norm_num [update, pAll, likelihoods, likelihoodStep, currentP, init])
